import Mathlib

/-!
# Verification of the football-analyzer quantitative core

Shallow embedding of the repository's modeling services and proofs about the
frozen claims.  The embedded modules are:

* `backend/app/services/value_bet_service.py` (`ValueBetAnalyzer`)
* `backend/app/services/xg_model.py` (`XGModel`)
* `backend/app/services/poisson_model.py` (`PoissonModel`)
* `backend/app/services/elo_rating.py` (`EloRating`)

Conventions used throughout:

* Python floats are idealized as exact arithmetic: rationals (`ℚ`) where the
  computation is field arithmetic, reals (`ℝ`) where the source evaluates
  transcendental functions (`exp` inside the Poisson pmf, `10 ** x` in the
  Elo expectation).
* Python dicts keyed by team name are modeled as association lists
  (`PoissonModel`'s coefficient dicts, with `dictGet`/`dictSet` for
  `.get(k, d)` and keyed assignment) or as `String → Option ℤ`
  (`EloRating.ratings`, with `Option.getD` for `.get(k, default)`).
* Fallible Python code (exceptions) is modeled with `Except String`.
* Python `round` (banker's rounding, round-half-to-even) is modeled by
  `pyRound` below.
-/

namespace FootballAnalyzer

/-! ## ValueBetAnalyzer (value_bet_service.py)

`implied_probability` is `1 / odds`.  In Python this raises
`ZeroDivisionError` when `odds == 0` and otherwise returns the quotient;
there is no validation of `odds ≤ 1.0` anywhere in the method.
`calculate_value` first calls `implied_probability(bookmaker_odds)`
(binding the result to an unused local), then returns
`model_probability * bookmaker_odds - 1`. -/

structure ValueBetAnalyzer where
  min_value_threshold : ℚ := 1/20

def initAnalyzer : ValueBetAnalyzer := {}

/-- `ValueBetAnalyzer.implied_probability`: `return 1 / odds`; Python raises
`ZeroDivisionError` exactly when `odds` is zero. -/
def implied_probability (odds : ℚ) : Except String ℚ :=
  if odds = 0 then .error "ZeroDivisionError" else .ok (1 / odds)

/-- `ValueBetAnalyzer.calculate_value`: computes `implied_probability(odds)`
(result unused, but its exception propagates), then returns
`model_probability * odds - 1`. -/
def calculate_value (_an : ValueBetAnalyzer) (model_probability : ℚ)
    (bookmaker_odds : ℚ) : Except String ℚ := do
  let _implied_prob ← implied_probability bookmaker_odds
  pure (model_probability * bookmaker_odds - 1)

/-- The three-way 1X2 dictionaries `{'home_win': _, 'draw': _, 'away_win': _}`
used both for model probabilities and for bookmaker odds. -/
structure Market3 where
  home_win : ℚ
  draw : ℚ
  away_win : ℚ

/-- One per-outcome record stored in the result dict of
`analyze_1x2_market`. -/
structure OutcomeAnalysis where
  model_probability : ℚ
  implied_probability : ℚ
  odds : ℚ
  value : ℚ
  is_value_bet : Bool
  deriving DecidableEq

/-- The result dict of `analyze_1x2_market`: the three per-outcome records
plus `best_value_bet` and `has_value_bet`. -/
structure Analysis1x2 where
  home_win : OutcomeAnalysis
  draw : OutcomeAnalysis
  away_win : OutcomeAnalysis
  best_value_bet : String
  has_value_bet : Bool
  deriving DecidableEq

/-- `ValueBetAnalyzer.analyze_1x2_market`.  The source computes the three
values (each via `calculate_value`, whose division can raise), fills the
three records, takes `best_value = max(home_value, draw_value, away_value)`
and resolves the name with the `if best_value == home_value / elif draw /
else away` chain, and sets `has_value_bet = best_value > threshold`. -/
def analyze_1x2_market (an : ValueBetAnalyzer) (match_prediction : Market3)
    (bookmaker_odds : Market3) : Except String Analysis1x2 := do
  let home_value ← calculate_value an match_prediction.home_win bookmaker_odds.home_win
  let draw_value ← calculate_value an match_prediction.draw bookmaker_odds.draw
  let away_value ← calculate_value an match_prediction.away_win bookmaker_odds.away_win
  let ip_home ← implied_probability bookmaker_odds.home_win
  let ip_draw ← implied_probability bookmaker_odds.draw
  let ip_away ← implied_probability bookmaker_odds.away_win
  let best_value := max home_value (max draw_value away_value)
  let best_name :=
    if best_value = home_value then "home_win"
    else if best_value = draw_value then "draw"
    else "away_win"
  pure {
    home_win := {
      model_probability := match_prediction.home_win
      implied_probability := ip_home
      odds := bookmaker_odds.home_win
      value := home_value
      is_value_bet := home_value > an.min_value_threshold }
    draw := {
      model_probability := match_prediction.draw
      implied_probability := ip_draw
      odds := bookmaker_odds.draw
      value := draw_value
      is_value_bet := draw_value > an.min_value_threshold }
    away_win := {
      model_probability := match_prediction.away_win
      implied_probability := ip_away
      odds := bookmaker_odds.away_win
      value := away_value
      is_value_bet := away_value > an.min_value_threshold }
    best_value_bet := best_name
    has_value_bet := best_value > an.min_value_threshold }

/-- The claim's description of the best-outcome selection: the outcome of
maximum value, ties broken in the order home_win → draw → away_win.
(Spec-follower definition, compared against the source's `max`/`if` chain.) -/
def specBestValueBet (home_value draw_value away_value : ℚ) : String :=
  if draw_value ≤ home_value ∧ away_value ≤ home_value then "home_win"
  else if away_value ≤ draw_value then "draw"
  else "away_win"

/-! ## XGModel (xg_model.py)

Only the untrained (heuristic) path is algorithmic; the trained path calls a
scikit-learn `RandomForestClassifier`, which is external to the modeled core
and kept as an opaque function field. -/

/-- One shot-event record.  The field defaults mirror the
`shot_data.get(key, default)` defaults used by `_simple_xg_estimation`
(18 m, 45°, not a big chance, not a header); a record with all keys present
is exactly this structure. -/
structure Shot where
  distance : ℚ := 18
  angle : ℚ := 45
  is_big_chance : Bool := false
  is_header : Bool := false

structure XGModel where
  is_trained : Bool := false
  /-- Opaque stand-in for `self.model.predict_proba(...)[0][1]`; only
  consulted when `is_trained` is true. -/
  classifier : Shot → ℚ := fun _ => 0

def initXGModel : XGModel := {}

/-- `XGModel._simple_xg_estimation`: the deterministic heuristic fallback.
`distance_factor = max(0, 1 - distance/30)`, `angle_factor = 1 - |angle|/90`,
bonus `0.3` for a big chance, penalty `0.2` for a header, result clamped by
`max(0, min(1, xg))`. -/
def simple_xg_estimation (shot : Shot) : ℚ :=
  let distance_factor := max 0 (1 - shot.distance / 30)
  let angle_factor := 1 - |shot.angle| / 90
  let big_chance_bonus : ℚ := if shot.is_big_chance then 3/10 else 0
  let header_penalty : ℚ := if shot.is_header then 1/5 else 0
  let base_xg := distance_factor * angle_factor
  let xg := base_xg + big_chance_bonus - header_penalty
  max 0 (min 1 xg)

/-- `XGModel.predict_xg`: heuristic fallback when untrained, classifier
output otherwise. -/
def predict_xg (m : XGModel) (shot : Shot) : ℚ :=
  if m.is_trained = false then simple_xg_estimation shot else m.classifier shot

/-! ### Claims C3, C8, C9 -/

/-- C3 counterexample: at odds `0.5 ≤ 1.0`, `implied_probability` succeeds
and returns `2.0` (not a probability), and `calculate_value` succeeds as
well; neither fails with an `InvalidOddsError` (no such error exists in the
source). -/
theorem c3_counterexample :
    implied_probability (1/2) = Except.ok 2 ∧
    calculate_value initAnalyzer (1/2) (1/2) = Except.ok (-(3/4)) := by
  constructor
  · norm_num [implied_probability]
  · norm_num [calculate_value, implied_probability, bind, Except.bind, pure,
      Except.pure]

/-- C3 amended: the source performs no validation of `odds ≤ 1.0`.  For any
`0 < odds ≤ 1`, `implied_probability` returns `1/odds ≥ 1` without raising,
and `calculate_value` returns `model_probability * odds - 1`; only
`odds = 0` raises (a `ZeroDivisionError`, not an `InvalidOddsError`). -/
theorem c3_amended_no_validation (odds : ℚ) (h0 : 0 < odds) (h1 : odds ≤ 1) :
    implied_probability odds = Except.ok (1 / odds) ∧ 1 ≤ 1 / odds ∧
    (∀ (an : ValueBetAnalyzer) (p : ℚ),
      calculate_value an p odds = Except.ok (p * odds - 1)) := by
  have hne : odds ≠ 0 := ne_of_gt h0
  refine ⟨?_, ?_, ?_⟩
  · simp [implied_probability, hne]
  · rw [le_div_iff₀ h0, one_mul]; exact h1
  · intro an p
    simp [calculate_value, implied_probability, hne]

/-- Witness for `c3_amended_no_validation` at odds `1/2`. -/
theorem c3_amended_no_validation_witness :
    implied_probability (1/2) = Except.ok (1 / ((1:ℚ)/2)) ∧ 1 ≤ 1 / ((1:ℚ)/2) ∧
    (∀ (an : ValueBetAnalyzer) (p : ℚ),
      calculate_value an p (1/2) = Except.ok (p * (1/2) - 1)) :=
  c3_amended_no_validation (1/2) (by norm_num) (by norm_num)

/-- The source's `best_value = max(...)` plus `if/elif/else` name resolution
agrees with the claim's argmax-with-tie-order description. -/
theorem bestName_eq_specBest (hv dv av : ℚ) :
    (if max hv (max dv av) = hv then "home_win"
     else if max hv (max dv av) = dv then "draw"
     else "away_win") = specBestValueBet hv dv av := by
  unfold specBestValueBet
  by_cases hA : dv ≤ hv ∧ av ≤ hv
  · have hb : max hv (max dv av) = hv := max_eq_left (max_le hA.1 hA.2)
    rw [hb, if_pos rfl, if_pos hA]
  · rw [if_neg hA]
    have hA' : dv ≤ hv → hv < av := by
      intro h
      rcases lt_or_le hv av with h' | h'
      · exact h'
      · exact absurd ⟨h, h'⟩ hA
    by_cases hD : av ≤ dv
    · have hvd : hv < dv := by
        rcases lt_or_le hv dv with h | h
        · exact h
        · exact absurd (le_trans hD h) (not_le.mpr (hA' h))
      have hb : max hv (max dv av) = dv := by
        rw [max_eq_left hD, max_eq_right hvd.le]
      rw [hb, if_neg (ne_of_gt hvd), if_pos rfl, if_pos hD]
    · push_neg at hD
      have hva : hv < av := by
        rcases le_or_lt dv hv with h | h
        · exact hA' h
        · exact lt_trans h hD
      have hb : max hv (max dv av) = av := by
        rw [max_eq_right hD.le, max_eq_right hva.le]
      rw [hb, if_neg (ne_of_gt hva), if_neg (ne_of_gt hD), if_neg (not_le.mpr hD)]

/-- C8: `analyze_1x2_market` computes `value = model_probability × odds − 1`
for each outcome, flags `is_value_bet` exactly when the value exceeds the
threshold, selects `best_value_bet` as the maximum-value outcome with ties
broken home_win → draw → away_win, sets `has_value_bet` iff the maximum
exceeds the threshold; and the concrete scenario with model
(0.5, 0.25, 0.25) and odds (2.2, 3.4, 4.0) yields values (0.10, −0.15, 0),
flags only home_win, best "home_win", has_value_bet true. -/
theorem c8_analyze_1x2_market :
    (∀ (an : ValueBetAnalyzer) (mp odds : Market3),
      odds.home_win ≠ 0 → odds.draw ≠ 0 → odds.away_win ≠ 0 →
      ∃ r, analyze_1x2_market an mp odds = Except.ok r ∧
        r.home_win.value = mp.home_win * odds.home_win - 1 ∧
        r.draw.value = mp.draw * odds.draw - 1 ∧
        r.away_win.value = mp.away_win * odds.away_win - 1 ∧
        (r.home_win.is_value_bet = true ↔ an.min_value_threshold < r.home_win.value) ∧
        (r.draw.is_value_bet = true ↔ an.min_value_threshold < r.draw.value) ∧
        (r.away_win.is_value_bet = true ↔ an.min_value_threshold < r.away_win.value) ∧
        r.best_value_bet = specBestValueBet r.home_win.value r.draw.value r.away_win.value ∧
        (r.has_value_bet = true ↔
          an.min_value_threshold < max r.home_win.value (max r.draw.value r.away_win.value))) ∧
    (∃ r, analyze_1x2_market initAnalyzer ⟨1/2, 1/4, 1/4⟩ ⟨11/5, 17/5, 4⟩ = Except.ok r ∧
      r.home_win.value = 1/10 ∧ r.draw.value = -(3/20) ∧ r.away_win.value = 0 ∧
      r.home_win.is_value_bet = true ∧ r.draw.is_value_bet = false ∧
      r.away_win.is_value_bet = false ∧ r.best_value_bet = "home_win" ∧
      r.has_value_bet = true) := by
  have hgen : ∀ (an : ValueBetAnalyzer) (mp odds : Market3),
      odds.home_win ≠ 0 → odds.draw ≠ 0 → odds.away_win ≠ 0 →
      ∃ r, analyze_1x2_market an mp odds = Except.ok r ∧
        r.home_win.value = mp.home_win * odds.home_win - 1 ∧
        r.draw.value = mp.draw * odds.draw - 1 ∧
        r.away_win.value = mp.away_win * odds.away_win - 1 ∧
        (r.home_win.is_value_bet = true ↔ an.min_value_threshold < r.home_win.value) ∧
        (r.draw.is_value_bet = true ↔ an.min_value_threshold < r.draw.value) ∧
        (r.away_win.is_value_bet = true ↔ an.min_value_threshold < r.away_win.value) ∧
        r.best_value_bet = specBestValueBet r.home_win.value r.draw.value r.away_win.value ∧
        (r.has_value_bet = true ↔
          an.min_value_threshold < max r.home_win.value (max r.draw.value r.away_win.value)) := by
    intro an mp odds h1 h2 h3
    simp only [analyze_1x2_market, calculate_value, implied_probability,
      if_neg h1, if_neg h2, if_neg h3, bind, Except.bind, pure, Except.pure]
    refine ⟨_, rfl, rfl, rfl, rfl, ?_, ?_, ?_, ?_, ?_⟩
    · simp [decide_eq_true_eq]
    · simp [decide_eq_true_eq]
    · simp [decide_eq_true_eq]
    · exact bestName_eq_specBest _ _ _
    · simp [decide_eq_true_eq]
  refine ⟨hgen, ?_⟩
  obtain ⟨r, hr, e1, e2, e3, b1, b2, b3, hb, hh⟩ :=
    hgen initAnalyzer ⟨1/2, 1/4, 1/4⟩ ⟨11/5, 17/5, 4⟩
      (by norm_num) (by norm_num) (by norm_num)
  have v1 : r.home_win.value = 1/10 := by rw [e1]; norm_num
  have v2 : r.draw.value = -(3/20) := by rw [e2]; norm_num
  have v3 : r.away_win.value = 0 := by rw [e3]; norm_num
  refine ⟨r, hr, v1, v2, v3, ?_, ?_, ?_, ?_, ?_⟩
  · exact b1.mpr (by rw [v1]; norm_num [initAnalyzer])
  · refine Bool.eq_false_iff.mpr fun h => ?_
    have := b2.mp h
    rw [v2] at this
    norm_num [initAnalyzer] at this
  · refine Bool.eq_false_iff.mpr fun h => ?_
    have := b3.mp h
    rw [v3] at this
    norm_num [initAnalyzer] at this
  · rw [hb, v1, v2, v3]
    norm_num [specBestValueBet]
  · exact hh.mpr (by rw [v1, v2, v3]; norm_num [initAnalyzer, max_def])

/-- Witness for the hypotheses of `c8_analyze_1x2_market` (first conjunct)
at uniform odds 2.0. -/
theorem c8_analyze_1x2_market_witness :
    ∃ r, analyze_1x2_market initAnalyzer ⟨1, 1, 1⟩ ⟨2, 2, 2⟩ = Except.ok r ∧
      r.home_win.value = 1 * 2 - 1 ∧
      r.draw.value = 1 * 2 - 1 ∧
      r.away_win.value = 1 * 2 - 1 ∧
      (r.home_win.is_value_bet = true ↔ initAnalyzer.min_value_threshold < r.home_win.value) ∧
      (r.draw.is_value_bet = true ↔ initAnalyzer.min_value_threshold < r.draw.value) ∧
      (r.away_win.is_value_bet = true ↔ initAnalyzer.min_value_threshold < r.away_win.value) ∧
      r.best_value_bet = specBestValueBet r.home_win.value r.draw.value r.away_win.value ∧
      (r.has_value_bet = true ↔
        initAnalyzer.min_value_threshold <
          max r.home_win.value (max r.draw.value r.away_win.value)) :=
  c8_analyze_1x2_market.1 initAnalyzer ⟨1, 1, 1⟩ ⟨2, 2, 2⟩
    (by norm_num) (by norm_num) (by norm_num)

/-- C9: an untrained `XGModel.predict_xg` equals the deterministic heuristic
`_simple_xg_estimation`, whose result is always clamped into [0,1]; the shot
(distance 5, angle 30, big chance, not a header) yields 77/90 ≈ 0.856. -/
theorem c9_untrained_xg :
    (∀ (m : XGModel) (shot : Shot), m.is_trained = false →
      predict_xg m shot = simple_xg_estimation shot ∧
      0 ≤ predict_xg m shot ∧ predict_xg m shot ≤ 1) ∧
    simple_xg_estimation ⟨5, 30, true, false⟩ = 77/90 ∧
    |simple_xg_estimation ⟨5, 30, true, false⟩ - 0.856| < 1/1000 := by
  have key : ∀ shot, 0 ≤ simple_xg_estimation shot ∧ simple_xg_estimation shot ≤ 1 := by
    intro shot
    unfold simple_xg_estimation
    exact ⟨le_max_left _ _, max_le (by norm_num) (min_le_left _ _)⟩
  have hval : simple_xg_estimation ⟨5, 30, true, false⟩ = 77/90 := by
    simp only [simple_xg_estimation]
    norm_num [max_def, min_def, abs_of_nonneg]
  refine ⟨?_, hval, by rw [hval]; norm_num [abs_lt]⟩
  intro m shot h
  have hp : predict_xg m shot = simple_xg_estimation shot := by
    simp [predict_xg, h]
  exact ⟨hp, hp ▸ (key shot).1, hp ▸ (key shot).2⟩

/-- Witness for the hypothesis of `c9_untrained_xg` (first conjunct) at the
fresh model and the scenario shot. -/
theorem c9_untrained_xg_witness :
    predict_xg initXGModel ⟨5, 30, true, false⟩ =
      simple_xg_estimation ⟨5, 30, true, false⟩ ∧
    0 ≤ predict_xg initXGModel ⟨5, 30, true, false⟩ ∧
    predict_xg initXGModel ⟨5, 30, true, false⟩ ≤ 1 :=
  c9_untrained_xg.1 initXGModel ⟨5, 30, true, false⟩ rfl

/-! ## PoissonModel (poisson_model.py)

`team_attack` / `team_defense` are Python dicts read through
`.get(team, 1.0)`; they are modeled as total functions (the get-default is
baked in), with the dict's key set tracked explicitly where `fit` iterates
over it.  `fit` builds `df = pd.DataFrame(historical_matches)`; on an empty
list the frame has no columns, so the first column access
`df['home_goals']` raises `KeyError` — this is the `.error` branch.
`all_teams` is a Python `set`; it is modeled as the dedup of the home-team
column followed by the away-team column.  (The per-team attack rescaling
reads only the team's own attack value and the — never modified — defense
values of its opponents, so the result does not depend on the set's
iteration order.) -/

structure MatchRec where
  home_team : String
  away_team : String
  home_goals : ℕ
  away_goals : ℕ

/-- `dict.get(k, d)` on an association list (first entry with the key
wins, as in a Python dict whose keys are unique). -/
def dictGet (l : List (String × ℚ)) (k : String) (d : ℚ) : ℚ :=
  match l with
  | [] => d
  | (k', v) :: rest => if k = k' then v else dictGet rest k d

/-- `dict[k] = v` for a key already present: rewrite the entry in place. -/
def dictSet (l : List (String × ℚ)) (k : String) (v : ℚ) : List (String × ℚ) :=
  l.map fun p => if p.1 = k then (p.1, v) else p

structure PoissonModel where
  team_attack : List (String × ℚ)
  team_defense : List (String × ℚ)
  home_advantage : ℚ := 27/20

/-- Fresh model: empty dicts (every `.get(team, 1.0)` returns the default). -/
def initPoissonModel : PoissonModel :=
  { team_attack := [], team_defense := [] }

/-- One team's attack rescaling inside a fit iteration: scale by
(actual home goals)/(expected home goals) over home appearances (when the
expectation is positive), then likewise over away appearances, the away
step reading the attack value just written by the home step. -/
def fitTeamUpdate (df : List MatchRec) (avg hadv : ℚ)
    (defn : List (String × ℚ)) (att : List (String × ℚ)) (team : String) :
    List (String × ℚ) :=
  let home_matches := df.filter (fun m => m.home_team = team)
  let att1 :=
    if home_matches.isEmpty then att
    else
      let home_goals : ℚ := ((home_matches.map (·.home_goals)).sum : ℕ)
      let expected_goals :=
        (home_matches.map
          (fun m => dictGet att team 1 * dictGet defn m.away_team 1 * hadv * avg)).sum
      if 0 < expected_goals then
        dictSet att team (dictGet att team 1 * (home_goals / expected_goals))
      else att
  let away_matches := df.filter (fun m => m.away_team = team)
  if away_matches.isEmpty then att1
  else
    let away_goals : ℚ := ((away_matches.map (·.away_goals)).sum : ℕ)
    let expected_goals :=
      (away_matches.map
        (fun m => dictGet att1 team 1 * dictGet defn m.home_team 1 * avg)).sum
    if 0 < expected_goals then
      dictSet att1 team (dictGet att1 team 1 * (away_goals / expected_goals))
    else att1

/-- End-of-iteration normalization: every dict entry (the keys are exactly
the training teams) is divided by the population mean of the entries
(`sum(dict.values()) / len(all_teams)`). -/
def normalizeVals (n : ℕ) (l : List (String × ℚ)) : List (String × ℚ) :=
  let mean := (l.map Prod.snd).sum / n
  l.map fun p => (p.1, p.2 / mean)

/-- One pass of the `for _ in range(5)` training loop: rescale every team's
attack, then normalize attack and defense to population mean 1. -/
def fitIteration (df : List MatchRec) (teams : List String) (avg hadv : ℚ)
    (p : List (String × ℚ) × List (String × ℚ)) :
    List (String × ℚ) × List (String × ℚ) :=
  let att' := teams.foldl (fitTeamUpdate df avg hadv p.2) p.1
  (normalizeVals teams.length att', normalizeVals teams.length p.2)

/-- `PoissonModel.fit`.  Empty input raises (`pd.DataFrame([])` has no
columns, so `df['home_goals']` is a `KeyError`) before any state is
assigned; otherwise both coefficient dicts are re-initialized to 1.0 for
every team appearing in the data and five rescaling iterations run.
`all_teams` is a Python set; its iteration order is modeled as first
appearance order (the result is order-independent: each team's rescaling
reads only its own attack entry and the never-modified defense entries). -/
def fit (m : PoissonModel) (historical_matches : List MatchRec) :
    Except String PoissonModel :=
  if historical_matches.isEmpty then
    .error "KeyError: home_goals"
  else
    let avg : ℚ :=
      (((historical_matches.map (·.home_goals)).sum +
        (historical_matches.map (·.away_goals)).sum : ℕ) : ℚ) /
        (historical_matches.length * 2)
    let teams := (historical_matches.map (·.home_team) ++
      historical_matches.map (·.away_team)).dedup
    let p0 : List (String × ℚ) × List (String × ℚ) :=
      (teams.map fun t => (t, 1), teams.map fun t => (t, 1))
    let p1 := fitIteration historical_matches teams avg m.home_advantage p0
    let p2 := fitIteration historical_matches teams avg m.home_advantage p1
    let p3 := fitIteration historical_matches teams avg m.home_advantage p2
    let p4 := fitIteration historical_matches teams avg m.home_advantage p3
    let p5 := fitIteration historical_matches teams avg m.home_advantage p4
    .ok { m with team_attack := p5.1, team_defense := p5.2 }

/-- `PoissonModel.predict_score`: expected goals for both sides, league
average 2.75 hardcoded, home-advantage multiplier on the home side only,
unseen teams defaulting to coefficient 1.0 via `.get(team, 1.0)`. -/
def predict_score (m : PoissonModel) (home_team away_team : String) : ℚ × ℚ :=
  let avg_goals : ℚ := 11/4
  (dictGet m.team_attack home_team 1 * dictGet m.team_defense away_team 1 *
      m.home_advantage * avg_goals / 2,
   dictGet m.team_attack away_team 1 * dictGet m.team_defense home_team 1 *
      avg_goals / 2)

/-- Total-function variant of `Except.getD`, used to name the model a
successful `fit` returns. -/
def okModel (e : Except String PoissonModel) (d : PoissonModel) : PoissonModel :=
  match e with
  | .ok m => m
  | .error _ => d

/-! ### Claims C4 and C10 -/

/-- C4 counterexample: `fit` on the empty match list is not a non-raising
no-op — it raises (the `KeyError` from accessing the `home_goals` column of
an empty `DataFrame`) instead of returning normally. -/
theorem c4_counterexample :
    fit initPoissonModel [] = Except.error "KeyError: home_goals" := rfl

/-- C4 amended: `fit` on an empty match list raises an error (a `KeyError`
for the missing `home_goals` column of the empty `DataFrame`, hit while
computing the average goals).  The previously fitted coefficient maps are
indeed left unchanged, but only because the exception propagates before any
assignment — the call is not non-raising. -/
theorem c4_amended_empty_fit_raises (m : PoissonModel) :
    fit m [] = Except.error "KeyError: home_goals" := rfl

/-- Looking any key up in an all-ones dict gives 1 (also via the default). -/
theorem dictGet_ones (teams : List String) (k : String) :
    dictGet (teams.map fun t => (t, (1:ℚ))) k 1 = 1 := by
  induction teams with
  | nil => rfl
  | cons a l ih => simp [dictGet, ih]

/-- An all-ones dict is unchanged by normalization over its own key list. -/
theorem normalizeVals_ones (teams : List String) (hne : teams ≠ []) :
    normalizeVals teams.length (teams.map fun t => (t, (1:ℚ))) =
      teams.map fun t => (t, (1:ℚ)) := by
  have hlen : (teams.length : ℚ) ≠ 0 := by
    simpa using fun h => hne (List.length_eq_zero.mp h)
  have hsum : ((teams.map fun t => (t, (1:ℚ))).map Prod.snd).sum =
      (teams.length : ℚ) := by
    rw [List.map_map]
    have hc : (Prod.snd ∘ fun t : String => (t, (1:ℚ))) = fun _ => (1:ℚ) := rfl
    rw [hc, List.map_const', List.sum_replicate, nsmul_eq_mul, mul_one]
  simp only [normalizeVals]
  rw [hsum, div_self hlen, List.map_map]
  refine List.map_congr_left fun a _ => ?_
  simp

/-- C10: the fitting loop never writes `team_defense`; it is initialized to
1.0 per team and the per-iteration normalization divides by the mean of an
all-ones dict, which is 1.  Hence after any successful `fit` every defense
lookup (entries and the 1.0 get-default alike) is exactly 1. -/
theorem c10_fit_defense_one (m : PoissonModel) (ms : List MatchRec)
    (m' : PoissonModel) (hok : fit m ms = Except.ok m') (t : String) :
    dictGet m'.team_defense t 1 = 1 := by
  rcases ms with _ | ⟨mr, rest⟩
  · exact absurd hok (by simp [fit])
  · set ms := mr :: rest with hm
    have hne : ms.isEmpty = false := rfl
    set teams := (ms.map (·.home_team) ++ ms.map (·.away_team)).dedup
      with hteams
    have hteamsne : teams ≠ [] := by
      intro h
      have : (ms.map (·.home_team) ++ ms.map (·.away_team)) = [] :=
        (List.dedup_eq_nil _).mp h
      simp [hm] at this
    set avg : ℚ :=
      (((ms.map (·.home_goals)).sum + (ms.map (·.away_goals)).sum : ℕ) : ℚ) /
        (ms.length * 2) with havg
    set step := fitIteration ms teams avg m.home_advantage with hstep
    set ones := teams.map fun t => (t, (1:ℚ)) with hones
    have hdefstep : ∀ p : List (String × ℚ) × List (String × ℚ),
        p.2 = ones → (step p).2 = ones := by
      intro p hp
      rw [hstep]
      show normalizeVals teams.length p.2 = ones
      rw [hp, hones]
      exact normalizeVals_ones teams hteamsne
    have h5 : (step (step (step (step (step (ones, ones)))))).2 = ones :=
      hdefstep _ (hdefstep _ (hdefstep _ (hdefstep _ (hdefstep _ rfl))))
    have hfit : fit m ms = Except.ok { m with
        team_attack := (step (step (step (step (step (ones, ones)))))).1,
        team_defense := (step (step (step (step (step (ones, ones)))))).2 } := by
      simp only [fit, hne, Bool.false_eq_true, if_false, ← hteams, ← havg,
        ← hstep, ← hones]
    rw [hfit] at hok
    cases hok
    show dictGet (step (step (step (step (step (ones, ones)))))).2 t 1 = 1
    rw [h5, hones]
    exact dictGet_ones teams t

/-- Witness for `c10_fit_defense_one`: a concrete successful fit on one
match. -/
theorem c10_fit_defense_one_witness :
    dictGet (okModel (fit initPoissonModel [⟨"A", "B", 1, 1⟩])
      initPoissonModel).team_defense "A" 1 = 1 :=
  c10_fit_defense_one initPoissonModel [⟨"A", "B", 1, 1⟩] _ rfl "A"

/-! ### The scoreline probability matrix of `predict_match_result`

`scipy.stats.poisson.pmf(k, mu) = exp(-mu) * mu**k / k!`; the matrix entry
`result_probs[i, j]` is the product of the home pmf at `i` and the away pmf
at `j` with the expectations from `predict_score`.  The 1X2 probabilities
are `np.tril(result_probs, -1)` (entries with `i > j`), the diagonal, and
`np.triu(result_probs, 1)` (entries with `i < j`). -/

noncomputable def poisson_pmf (lam : ℝ) (k : ℕ) : ℝ :=
  Real.exp (-lam) * lam ^ k / (Nat.factorial k : ℝ)

noncomputable def result_prob (m : PoissonModel) (home_team away_team : String)
    (i j : ℕ) : ℝ :=
  poisson_pmf ((predict_score m home_team away_team).1 : ℝ) i *
    poisson_pmf ((predict_score m home_team away_team).2 : ℝ) j

noncomputable def home_win_prob (m : PoissonModel) (h a : String)
    (max_goals : ℕ) : ℝ :=
  ∑ i ∈ Finset.range (max_goals + 1), ∑ j ∈ Finset.range (max_goals + 1),
    if j < i then result_prob m h a i j else 0

noncomputable def draw_prob (m : PoissonModel) (h a : String)
    (max_goals : ℕ) : ℝ :=
  ∑ i ∈ Finset.range (max_goals + 1), ∑ j ∈ Finset.range (max_goals + 1),
    if i = j then result_prob m h a i j else 0

noncomputable def away_win_prob (m : PoissonModel) (h a : String)
    (max_goals : ℕ) : ℝ :=
  ∑ i ∈ Finset.range (max_goals + 1), ∑ j ∈ Finset.range (max_goals + 1),
    if i < j then result_prob m h a i j else 0

theorem poisson_pmf_nonneg {lam : ℝ} (hl : 0 ≤ lam) (k : ℕ) :
    0 ≤ poisson_pmf lam k := by
  unfold poisson_pmf
  have h1 : 0 ≤ Real.exp (-lam) := (Real.exp_pos _).le
  have h2 : 0 ≤ lam ^ k := pow_nonneg hl k
  have h3 : (0:ℝ) < (Nat.factorial k : ℝ) := by
    exact_mod_cast Nat.factorial_pos k
  positivity

/-- The three triangular pieces of the double sum recombine into the product
of the two marginal sums. -/
theorem triangle_split (n : ℕ) (f g : ℕ → ℝ) :
    ((∑ i ∈ Finset.range n, ∑ j ∈ Finset.range n, if j < i then f i * g j else 0) +
     (∑ i ∈ Finset.range n, ∑ j ∈ Finset.range n, if i = j then f i * g j else 0) +
     (∑ i ∈ Finset.range n, ∑ j ∈ Finset.range n, if i < j then f i * g j else 0)) =
    (∑ i ∈ Finset.range n, f i) * (∑ j ∈ Finset.range n, g j) := by
  have cell : ∀ i j : ℕ,
      ((if j < i then f i * g j else 0) + (if i = j then f i * g j else 0) +
        (if i < j then f i * g j else 0)) = f i * g j := by
    intro i j
    rcases lt_trichotomy j i with hlt | heq | hgt
    · rw [if_pos hlt, if_neg (by omega), if_neg (by omega)]; ring
    · rw [if_neg (by omega), if_pos (by omega), if_neg (by omega)]; ring
    · rw [if_neg (by omega), if_neg (by omega), if_pos hgt]; ring
  rw [Finset.sum_mul_sum]
  rw [← Finset.sum_add_distrib, ← Finset.sum_add_distrib]
  refine Finset.sum_congr rfl fun i _ => ?_
  rw [← Finset.sum_add_distrib, ← Finset.sum_add_distrib]
  exact Finset.sum_congr rfl fun j _ => cell i j

/-- The 1X2 probabilities always sum to the product of the two truncated
Poisson masses (pure algebra, no positivity needed). -/
theorem sum1x2_eq (m : PoissonModel) (h a : String) (g : ℕ) :
    home_win_prob m h a g + draw_prob m h a g + away_win_prob m h a g =
      (∑ i ∈ Finset.range (g + 1),
        poisson_pmf ((predict_score m h a).1 : ℝ) i) *
      (∑ j ∈ Finset.range (g + 1),
        poisson_pmf ((predict_score m h a).2 : ℝ) j) := by
  unfold home_win_prob draw_prob away_win_prob result_prob
  exact triangle_split (g + 1)
    (poisson_pmf ((predict_score m h a).1 : ℝ))
    (poisson_pmf ((predict_score m h a).2 : ℝ))

/-- A truncated Poisson mass is at most 1 (the Taylor partial sum of `exp`
is below `exp`). -/
theorem sum_poisson_pmf_le_one {lam : ℝ} (hl : 0 ≤ lam) (n : ℕ) :
    ∑ k ∈ Finset.range n, poisson_pmf lam k ≤ 1 := by
  have h1 : ∑ k ∈ Finset.range n, poisson_pmf lam k =
      Real.exp (-lam) * ∑ k ∈ Finset.range n, lam ^ k / (Nat.factorial k : ℝ) := by
    rw [Finset.mul_sum]
    exact Finset.sum_congr rfl fun k _ => by rw [poisson_pmf, mul_div_assoc]
  rw [h1]
  have h2 : ∑ k ∈ Finset.range n, lam ^ k / (Nat.factorial k : ℝ) ≤ Real.exp lam := by
    simpa using Real.sum_le_exp_of_nonneg hl n
  calc Real.exp (-lam) * ∑ k ∈ Finset.range n, lam ^ k / (Nat.factorial k : ℝ) ≤
      Real.exp (-lam) * Real.exp lam :=
        mul_le_mul_of_nonneg_left h2 (Real.exp_pos _).le
    _ = 1 := by rw [← Real.exp_add]; simp

theorem sum_poisson_pmf_nonneg {lam : ℝ} (hl : 0 ≤ lam) (n : ℕ) :
    0 ≤ ∑ k ∈ Finset.range n, poisson_pmf lam k :=
  Finset.sum_nonneg fun k _ => poisson_pmf_nonneg hl k

/-- The away marginal collapses to 1 when the away expectation is zero
(`pmf(0, 0) = 1`, `pmf(k, 0) = 0` for `k ≥ 1`; λ = 0 is valid and does not
raise). -/
theorem sum_poisson_pmf_zero (n : ℕ) :
    ∑ k ∈ Finset.range (n + 1), poisson_pmf 0 k = 1 := by
  rw [Finset.sum_eq_single_of_mem 0 (Finset.mem_range.mpr (by omega))]
  · simp [poisson_pmf]
  · intro b _ hb
    simp [poisson_pmf, zero_pow hb]

theorem sum_poisson_pmf_factor (lam : ℝ) (n : ℕ) :
    ∑ k ∈ Finset.range n, poisson_pmf lam k =
      Real.exp (-lam) * ∑ k ∈ Finset.range n, lam ^ k / (Nat.factorial k : ℝ) := by
  rw [Finset.mul_sum]
  exact Finset.sum_congr rfl fun k _ => by rw [poisson_pmf, mul_div_assoc]

/-- Upper bound for `exp` at twice a point of `[0,1]`, via the Taylor
remainder bound at the halved point. -/
theorem exp_double_upper (x : ℝ) (hx0 : 0 ≤ x) (hx1 : x ≤ 1) :
    Real.exp (x + x) ≤
      (∑ m ∈ Finset.range 10, x ^ m / (Nat.factorial m : ℝ) +
        x ^ 10 * 11 / ((Nat.factorial 10 : ℝ) * 10)) ^ 2 := by
  have h := @Real.exp_bound' x hx0 hx1 10 (by norm_num)
  have h' : Real.exp x ≤
      ∑ m ∈ Finset.range 10, x ^ m / (Nat.factorial m : ℝ) +
        x ^ 10 * 11 / ((Nat.factorial 10 : ℝ) * 10) := by
    calc Real.exp x ≤ ∑ m ∈ Finset.range 10, x ^ m / (Nat.factorial m : ℝ) +
        x ^ 10 * (10 + 1) / ((Nat.factorial 10 : ℝ) * 10) := h
    _ = _ := by norm_num
  have h0 : 0 ≤ Real.exp x := (Real.exp_pos x).le
  rw [Real.exp_add, sq]
  exact mul_le_mul h' h' h0 (h0.trans h')

/-- A truncated Poisson mass is bounded below by the rational Taylor mass
divided by (the square of) a Taylor-with-remainder upper bound for `exp`
at the halved rate. -/
theorem truncated_mass_lb (lam half : ℝ) (hhalf : lam = half + half)
    (h0 : 0 ≤ half) (h1 : half ≤ 1) (n : ℕ) :
    ((∑ m ∈ Finset.range 10, half ^ m / (Nat.factorial m : ℝ) +
       half ^ 10 * 11 / ((Nat.factorial 10 : ℝ) * 10)) ^ 2)⁻¹ *
      (∑ k ∈ Finset.range n, lam ^ k / (Nat.factorial k : ℝ)) ≤
    ∑ k ∈ Finset.range n, poisson_pmf lam k := by
  rw [sum_poisson_pmf_factor, Real.exp_neg]
  have hl : 0 ≤ lam := by rw [hhalf]; linarith
  refine mul_le_mul_of_nonneg_right ?_ ?_
  · refine inv_anti₀ (Real.exp_pos lam) ?_
    rw [hhalf]
    exact exp_double_upper half h0 h1
  · exact Finset.sum_nonneg fun k _ => by positivity

/-! ### Claim C6 -/

/-- C6 amended, general part plus the default-state bound: the 1X2
probabilities are non-negative, they sum exactly to the product of the two
truncated Poisson masses (so their deviation from 1 is the truncation
residual, which is non-negative), and for the default (unfitted) model at
`max_goals = 10` that residual is below 1e-4.  The universal "residual
below 1e-4 for every fitted state" part of the claim is refuted by
`c6_counterexample`. -/
theorem c6_1x2_consistency :
    (∀ (m : PoissonModel) (h a : String) (g : ℕ),
      0 ≤ dictGet m.team_attack h 1 → 0 ≤ dictGet m.team_attack a 1 →
      0 ≤ dictGet m.team_defense h 1 → 0 ≤ dictGet m.team_defense a 1 →
      0 ≤ m.home_advantage →
      0 ≤ home_win_prob m h a g ∧ 0 ≤ draw_prob m h a g ∧
      0 ≤ away_win_prob m h a g ∧
      home_win_prob m h a g + draw_prob m h a g + away_win_prob m h a g =
        (∑ i ∈ Finset.range (g + 1),
          poisson_pmf ((predict_score m h a).1 : ℝ) i) *
        (∑ j ∈ Finset.range (g + 1),
          poisson_pmf ((predict_score m h a).2 : ℝ) j) ∧
      home_win_prob m h a g + draw_prob m h a g + away_win_prob m h a g ≤ 1) ∧
    1 - (home_win_prob initPoissonModel "X" "Y" 10 +
         draw_prob initPoissonModel "X" "Y" 10 +
         away_win_prob initPoissonModel "X" "Y" 10) < 1/10000 := by
  constructor
  · intro m h a g h1 h2 h3 h4 h5
    have hq1 : (0:ℚ) ≤ (predict_score m h a).1 := by
      simp only [predict_score]
      have hm := mul_nonneg (mul_nonneg (mul_nonneg h1 h4) h5)
        (by norm_num : (0:ℚ) ≤ 11/4)
      exact div_nonneg hm (by norm_num)
    have hq2 : (0:ℚ) ≤ (predict_score m h a).2 := by
      simp only [predict_score]
      have hm := mul_nonneg (mul_nonneg h2 h3) (by norm_num : (0:ℚ) ≤ 11/4)
      exact div_nonneg hm (by norm_num)
    have hlamh : (0:ℝ) ≤ ((predict_score m h a).1 : ℝ) := by exact_mod_cast hq1
    have hlama : (0:ℝ) ≤ ((predict_score m h a).2 : ℝ) := by exact_mod_cast hq2
    have hcell : ∀ i j, 0 ≤ result_prob m h a i j := fun i j =>
      mul_nonneg (poisson_pmf_nonneg hlamh i) (poisson_pmf_nonneg hlama j)
    have hhw : 0 ≤ home_win_prob m h a g :=
      Finset.sum_nonneg fun i _ => Finset.sum_nonneg fun j _ => by
        split_ifs
        · exact hcell i j
        · exact le_rfl
    have hdr : 0 ≤ draw_prob m h a g :=
      Finset.sum_nonneg fun i _ => Finset.sum_nonneg fun j _ => by
        split_ifs
        · exact hcell i j
        · exact le_rfl
    have haw : 0 ≤ away_win_prob m h a g :=
      Finset.sum_nonneg fun i _ => Finset.sum_nonneg fun j _ => by
        split_ifs
        · exact hcell i j
        · exact le_rfl
    refine ⟨hhw, hdr, haw, sum1x2_eq m h a g, ?_⟩
    rw [sum1x2_eq m h a g]
    exact mul_le_one₀ (sum_poisson_pmf_le_one hlamh _)
      (sum_poisson_pmf_nonneg hlama _) (sum_poisson_pmf_le_one hlama _)
  · have hps : predict_score initPoissonModel "X" "Y" = (297/160, 11/8) := by
      norm_num [predict_score, initPoissonModel, dictGet]
    have hc1 : (((predict_score initPoissonModel "X" "Y").1 : ℚ) : ℝ) = 297/160 := by
      rw [hps]; norm_num
    have hc2 : (((predict_score initPoissonModel "X" "Y").2 : ℚ) : ℝ) = 11/8 := by
      rw [hps]; norm_num
    have hsum := sum1x2_eq initPoissonModel "X" "Y" 10
    rw [hc1, hc2] at hsum
    rw [hsum]
    have hlbh := truncated_mass_lb (297/160) (297/320) (by norm_num)
      (by norm_num) (by norm_num) 11
    have hlba := truncated_mass_lb (11/8) (11/16) (by norm_num)
      (by norm_num) (by norm_num) 11
    have hposh : (0:ℝ) ≤
        ((∑ m ∈ Finset.range 10, ((297:ℝ)/320) ^ m / (Nat.factorial m : ℝ) +
          ((297:ℝ)/320) ^ 10 * 11 / ((Nat.factorial 10 : ℝ) * 10)) ^ 2)⁻¹ *
        (∑ k ∈ Finset.range 11, ((297:ℝ)/160) ^ k / (Nat.factorial k : ℝ)) := by
      positivity
    have hposa : (0:ℝ) ≤
        ((∑ m ∈ Finset.range 10, ((11:ℝ)/16) ^ m / (Nat.factorial m : ℝ) +
          ((11:ℝ)/16) ^ 10 * 11 / ((Nat.factorial 10 : ℝ) * 10)) ^ 2)⁻¹ *
        (∑ k ∈ Finset.range 11, ((11:ℝ)/8) ^ k / (Nat.factorial k : ℝ)) := by
      positivity
    have hA0 : (0:ℝ) ≤ ∑ k ∈ Finset.range 11, poisson_pmf (297/160) k :=
      sum_poisson_pmf_nonneg (by norm_num) 11
    have hprod := mul_le_mul hlbh hlba hposa hA0
    have hnum : (9999:ℝ)/10000 <
        ((∑ m ∈ Finset.range 10, ((297:ℝ)/320) ^ m / (Nat.factorial m : ℝ) +
          ((297:ℝ)/320) ^ 10 * 11 / ((Nat.factorial 10 : ℝ) * 10)) ^ 2)⁻¹ *
        (∑ k ∈ Finset.range 11, ((297:ℝ)/160) ^ k / (Nat.factorial k : ℝ)) *
        (((∑ m ∈ Finset.range 10, ((11:ℝ)/16) ^ m / (Nat.factorial m : ℝ) +
          ((11:ℝ)/16) ^ 10 * 11 / ((Nat.factorial 10 : ℝ) * 10)) ^ 2)⁻¹ *
        (∑ k ∈ Finset.range 11, ((11:ℝ)/8) ^ k / (Nat.factorial k : ℝ))) := by
      have f2 : Nat.factorial 2 = 2 := rfl
      have f3 : Nat.factorial 3 = 6 := rfl
      have f4 : Nat.factorial 4 = 24 := rfl
      have f5 : Nat.factorial 5 = 120 := rfl
      have f6 : Nat.factorial 6 = 720 := rfl
      have f7 : Nat.factorial 7 = 5040 := rfl
      have f8 : Nat.factorial 8 = 40320 := rfl
      have f9 : Nat.factorial 9 = 362880 := rfl
      have f10 : Nat.factorial 10 = 3628800 := rfl
      norm_num [Finset.sum_range_succ, Nat.factorial, f2, f3, f4, f5, f6, f7,
        f8, f9, f10]
    linarith [lt_of_lt_of_le hnum hprod]

/-- Witness for the hypotheses of `c6_1x2_consistency` (first conjunct) at
the fresh model, where every dict lookup returns the 1.0 default. -/
theorem c6_1x2_consistency_witness :
    0 ≤ home_win_prob initPoissonModel "H" "A" 10 ∧
    0 ≤ draw_prob initPoissonModel "H" "A" 10 ∧
    0 ≤ away_win_prob initPoissonModel "H" "A" 10 ∧
    home_win_prob initPoissonModel "H" "A" 10 + draw_prob initPoissonModel "H" "A" 10 +
      away_win_prob initPoissonModel "H" "A" 10 =
      (∑ i ∈ Finset.range (10 + 1),
        poisson_pmf ((predict_score initPoissonModel "H" "A").1 : ℝ) i) *
      (∑ j ∈ Finset.range (10 + 1),
        poisson_pmf ((predict_score initPoissonModel "H" "A").2 : ℝ) j) ∧
    home_win_prob initPoissonModel "H" "A" 10 + draw_prob initPoissonModel "H" "A" 10 +
      away_win_prob initPoissonModel "H" "A" 10 ≤ 1 :=
  c6_1x2_consistency.1 initPoissonModel "H" "A" 10
    (by norm_num [initPoissonModel, dictGet]) (by norm_num [initPoissonModel, dictGet])
    (by norm_num [initPoissonModel, dictGet]) (by norm_num [initPoissonModel, dictGet])
    (by norm_num [initPoissonModel])

/-- One 4:0 home win: fitting it drives the winner's attack coefficient to
2 and the loser's to 0, so the fitted home expectation for the rematch is
2 × 1.35 × 1.375 = 3.7125 — large enough that the mass truncated beyond 10
home goals exceeds 1e-4. -/
def c6_matches : List MatchRec := [⟨"A", "B", 4, 0⟩]

def c6_model : PoissonModel := okModel (fit initPoissonModel c6_matches) initPoissonModel

/-- C6 counterexample: a successfully fitted state whose 1X2 probabilities
at `max_goals = 10` fall short of 1 by more than 1e-4 (the truncation
residual is ≈ 1.1e-3, not below 1e-4). -/
theorem c6_counterexample :
    (∃ mf, fit initPoissonModel c6_matches = Except.ok mf) ∧
    1/10000 < 1 - (home_win_prob c6_model "A" "B" 10 + draw_prob c6_model "A" "B" 10 +
      away_win_prob c6_model "A" "B" 10) := by
  refine ⟨⟨c6_model, rfl⟩, ?_⟩
  have hps : predict_score c6_model "A" "B" = (297/80, 0) := by
    norm_num +decide [c6_model, c6_matches, predict_score, okModel, fit,
      fitIteration, fitTeamUpdate, normalizeVals, dictGet, dictSet,
      initPoissonModel, List.filter_cons]
  have hc1 : (((predict_score c6_model "A" "B").1 : ℚ) : ℝ) = 297/80 := by
    rw [hps]; norm_num
  have hc2 : (((predict_score c6_model "A" "B").2 : ℚ) : ℝ) = 0 := by
    rw [hps]; norm_num
  have hsum := sum1x2_eq c6_model "A" "B" 10
  rw [hc1, hc2] at hsum
  rw [hsum, sum_poisson_pmf_zero 10, mul_one]
  have hfac := sum_poisson_pmf_factor (297/80 : ℝ) 11
  have hT12 : (∑ i ∈ Finset.range 12, ((297:ℝ)/80) ^ i / (Nat.factorial i : ℝ)) ≤
      Real.exp ((297:ℝ)/80) := by
    simpa using Real.sum_le_exp_of_nonneg (by norm_num : (0:ℝ) ≤ 297/80) 12
  have hT12pos : (0:ℝ) <
      ∑ i ∈ Finset.range 12, ((297:ℝ)/80) ^ i / (Nat.factorial i : ℝ) := by
    have : (0:ℝ) < ((297:ℝ)/80) ^ 0 / (Nat.factorial 0 : ℝ) := by norm_num
    refine Finset.sum_pos' (fun i _ => by positivity) ⟨0, Finset.mem_range.mpr (by omega), this⟩
  have hub : ∑ k ∈ Finset.range 11, poisson_pmf (297/80) k ≤
      (∑ i ∈ Finset.range 12, ((297:ℝ)/80) ^ i / (Nat.factorial i : ℝ))⁻¹ *
      (∑ k ∈ Finset.range 11, ((297:ℝ)/80) ^ k / (Nat.factorial k : ℝ)) := by
    rw [hfac, Real.exp_neg]
    refine mul_le_mul_of_nonneg_right ?_ ?_
    · exact inv_anti₀ hT12pos hT12
    · refine Finset.sum_nonneg fun k _ => by positivity
  have hnum : (∑ i ∈ Finset.range 12, ((297:ℝ)/80) ^ i / (Nat.factorial i : ℝ))⁻¹ *
      (∑ k ∈ Finset.range 11, ((297:ℝ)/80) ^ k / (Nat.factorial k : ℝ)) <
      9999/10000 := by
    have f2 : Nat.factorial 2 = 2 := rfl
    have f3 : Nat.factorial 3 = 6 := rfl
    have f4 : Nat.factorial 4 = 24 := rfl
    have f5 : Nat.factorial 5 = 120 := rfl
    have f6 : Nat.factorial 6 = 720 := rfl
    have f7 : Nat.factorial 7 = 5040 := rfl
    have f8 : Nat.factorial 8 = 40320 := rfl
    have f9 : Nat.factorial 9 = 362880 := rfl
    have f10 : Nat.factorial 10 = 3628800 := rfl
    have f11 : Nat.factorial 11 = 39916800 := rfl
    norm_num [Finset.sum_range_succ, f2, f3, f4, f5, f6, f7, f8, f9, f10, f11]
  linarith

/-! ### `most_likely_scores` (top-5 exact scores)

The source ranks the flattened matrix with
`np.argsort(result_probs.flatten())[::-1][:5]` and unravels row-major
(home goals outer, away goals inner).  Every matrix entry is
`exp(-(λh + λa))` times the rational "core" `λh^i/i! * λa^j/j!`; the factor
is the same positive constant for all cells, so comparisons and exact ties
of the float matrix correspond to comparisons and ties of the cores, and
the ranking is modeled over the cores.

`np.argsort`'s default `kind='quicksort'` (introsort) is *not* stable in
general: only an array short enough to fall entirely to its insertion-sort
cutoff is sorted stably, which for the flattened `(max_goals+1)²` matrix
means `max_goals ≤ 3`.  In that regime the ascending stable argsort is
exactly "sort the (flat index, value) pairs by value, then index";
`argsortAsc` realizes that total order with `insertionSort` (the choice of
algorithm is irrelevant to the result because the order is antisymmetric
on the distinct indices).  For larger matrices — including the default
`max_goals = 10` — the source leaves the relative order of *exactly tied*
cells unspecified, so only tie-insensitive consequences of this model (an
order weakly descending in value, and every omitted cell dominated in
value by every listed cell) transfer to the source there; the
tie-*sensitive* statements below are asserted only under `max_goals ≤ 3`.
`[::-1]` is `reverse` and `[:5]` is `take 5`. -/

def pmf_core (lam : ℚ) (k : ℕ) : ℚ := lam ^ k / (Nat.factorial k : ℚ)

def flat_cells (m : PoissonModel) (h a : String) (max_goals : ℕ) :
    List (ℕ × ℚ) :=
  (List.range ((max_goals + 1) * (max_goals + 1))).map fun idx =>
    (idx, pmf_core (predict_score m h a).1 (idx / (max_goals + 1)) *
          pmf_core (predict_score m h a).2 (idx % (max_goals + 1)))

/-- Ascending by value with the flat index as tiebreak: the order an
ascending *stable* argsort realizes on (index, value) pairs. -/
def ascLex (x y : ℕ × ℚ) : Prop := x.2 < y.2 ∨ (x.2 = y.2 ∧ x.1 ≤ y.1)

instance : DecidableRel ascLex := fun x y =>
  inferInstanceAs (Decidable (x.2 < y.2 ∨ (x.2 = y.2 ∧ x.1 ≤ y.1)))

instance : IsTotal (ℕ × ℚ) ascLex where
  total a b := by
    unfold ascLex
    rcases lt_trichotomy a.2 b.2 with hv | hv | hv
    · exact Or.inl (Or.inl hv)
    · rcases Nat.le_total a.1 b.1 with hi | hi
      · exact Or.inl (Or.inr ⟨hv, hi⟩)
      · exact Or.inr (Or.inr ⟨hv.symm, hi⟩)
    · exact Or.inr (Or.inl hv)

instance : IsTrans (ℕ × ℚ) ascLex where
  trans a b c hab hbc := by
    unfold ascLex at *
    rcases hab with hab | ⟨hab, hab'⟩ <;> rcases hbc with hbc | ⟨hbc, hbc'⟩
    · exact Or.inl (lt_trans hab hbc)
    · exact Or.inl (hbc ▸ hab)
    · exact Or.inl (hab ▸ hbc)
    · exact Or.inr ⟨hab.trans hbc, le_trans hab' hbc'⟩

/-- The ascending argsort of the flattened cells.  Faithful to
`np.argsort(..., kind='quicksort')` only on arrays short enough for the
sort to run entirely in its stable insertion-sort regime
(`max_goals ≤ 3` here); above that the source fixes no tie order, and the
theorems below assert the tie order only within the regime — outside it
only tie-insensitive (value-level) consequences are read off, and those
coincide for every correct sort. -/
def argsortAsc (l : List (ℕ × ℚ)) : List (ℕ × ℚ) := l.insertionSort ascLex

/-- `np.argsort(...)[::-1][:5]` over the flattened cells. -/
def top5_cells (m : PoissonModel) (h a : String) (max_goals : ℕ) :
    List (ℕ × ℚ) :=
  ((argsortAsc (flat_cells m h a max_goals)).reverse).take 5

/-- The published `most_likely_scores`: flat indices unraveled row-major to
scorelines (the source formats them as the string `f"{i}:{j}"`; the pair
`(i, j)` is kept here) with the cell value. -/
def most_likely_scores (m : PoissonModel) (h a : String) (max_goals : ℕ) :
    List ((ℕ × ℕ) × ℚ) :=
  (top5_cells m h a max_goals).map fun p =>
    ((p.1 / (max_goals + 1), p.1 % (max_goals + 1)), p.2)

/-! ### Claim C5 -/

/-- C5 amended: for every `max_goals` the top-5 list is ranked by weakly
descending cell probability and every cell not listed has value at most
that of every listed cell (tie-insensitive facts, shared by every correct
sort); additionally, when `max_goals ≤ 3` — the regime where the default
`np.argsort` runs its stable insertion-sort path, so its tie order is
determined — the list is *strictly* ordered with exact ties resolved
*later*-row-major-first (the `[::-1]` reversal flips the stable ascending
tie order), and every omitted cell compares less-or-tied-earlier against
every listed cell.  For `max_goals > 3` (including the default 10) the
source fixes no tie order at all; in particular the claimed
earlier-row-major-first rule holds in no regime. -/
theorem c5_amended_ranking (m : PoissonModel) (h a : String) (g : ℕ) :
    ((top5_cells m h a g).Pairwise (fun x y => y.2 ≤ x.2) ∧
     (∀ p ∈ flat_cells m h a g, p ∉ top5_cells m h a g →
       ∀ q ∈ top5_cells m h a g, p.2 ≤ q.2)) ∧
    (g ≤ 3 →
      (top5_cells m h a g).Pairwise
        (fun x y => y.2 < x.2 ∨ (y.2 = x.2 ∧ y.1 < x.1)) ∧
      (∀ p ∈ flat_cells m h a g, p ∉ top5_cells m h a g →
        ∀ q ∈ top5_cells m h a g, p.2 < q.2 ∨ (p.2 = q.2 ∧ p.1 < q.1)) ∧
      most_likely_scores m h a g = (top5_cells m h a g).map
        (fun p => ((p.1 / (g + 1), p.1 % (g + 1)), p.2))) := by
  have hsorted : (argsortAsc (flat_cells m h a g)).Pairwise ascLex :=
    List.sorted_insertionSort ascLex (flat_cells m h a g)
  have hperm : List.Perm (argsortAsc (flat_cells m h a g)) (flat_cells m h a g) :=
    List.perm_insertionSort ascLex (flat_cells m h a g)
  have hfst : (flat_cells m h a g).map Prod.fst = List.range ((g+1)*(g+1)) := by
    have hmm : (flat_cells m h a g).map Prod.fst =
        (List.range ((g+1)*(g+1))).map (fun idx => idx) := by
      simp only [flat_cells, List.map_map]
      rfl
    rw [hmm, List.map_id']
  have hnodup : ((argsortAsc (flat_cells m h a g)).map Prod.fst).Nodup := by
    refine ((hperm.map Prod.fst).nodup_iff).mpr ?_
    rw [hfst]
    exact List.nodup_range _
  have hpw_ne : (argsortAsc (flat_cells m h a g)).Pairwise
      (fun x y : ℕ × ℚ => x.1 ≠ y.1) := List.pairwise_map.mp hnodup
  have hstrict : (argsortAsc (flat_cells m h a g)).Pairwise
      (fun x y => x.2 < y.2 ∨ (x.2 = y.2 ∧ x.1 < y.1)) := by
    refine (hsorted.and hpw_ne).imp ?_
    rintro x y ⟨hxy | ⟨he, hle⟩, hne⟩
    · exact Or.inl hxy
    · exact Or.inr ⟨he, lt_of_le_of_ne hle hne⟩
  have hrev : (argsortAsc (flat_cells m h a g)).reverse.Pairwise
      (fun x y => y.2 < x.2 ∨ (y.2 = x.2 ∧ y.1 < x.1)) :=
    List.pairwise_reverse.mpr hstrict
  have hpw5 : (top5_cells m h a g).Pairwise
      (fun x y => y.2 < x.2 ∨ (y.2 = x.2 ∧ y.1 < x.1)) :=
    List.Pairwise.sublist (List.take_sublist 5 _) hrev
  have hcomp : ∀ p ∈ flat_cells m h a g, p ∉ top5_cells m h a g →
      ∀ q ∈ top5_cells m h a g, p.2 < q.2 ∨ (p.2 = q.2 ∧ p.1 < q.1) := by
    intro p hpl hpnot q hq
    have hpS : p ∈ (argsortAsc (flat_cells m h a g)).reverse := by
      rw [List.mem_reverse]
      exact (hperm.mem_iff).mpr hpl
    have hsplit := (List.take_append_drop 5
      (argsortAsc (flat_cells m h a g)).reverse).symm
    have hpw2 := hrev
    rw [hsplit] at hpw2 hpS
    rcases List.mem_append.mp hpS with hmem | hmem
    · exact absurd hmem hpnot
    · exact (List.pairwise_append.mp hpw2).2.2 q hq p hmem
  refine ⟨⟨?_, ?_⟩, fun _ => ⟨hpw5, hcomp, rfl⟩⟩
  · refine hpw5.imp ?_
    rintro x y (hlt | ⟨heq, _⟩)
    · exact le_of_lt hlt
    · exact le_of_eq heq
  · intro p hpl hpnot q hq
    rcases hcomp p hpl hpnot q hq with hlt | ⟨heq, _⟩
    · exact le_of_lt hlt
    · exact le_of_eq heq

/-- Witness for the (inner) hypotheses of `c5_amended_ranking`: the fresh
model at `max_goals = 1` — a 4-cell matrix, inside the stable
insertion-sort regime (`1 ≤ 3`), so the tie-sensitive conjuncts apply. -/
theorem c5_amended_ranking_witness :
    ((top5_cells initPoissonModel "H" "A" 1).Pairwise
       (fun x y => y.2 ≤ x.2) ∧
     (∀ p ∈ flat_cells initPoissonModel "H" "A" 1,
       p ∉ top5_cells initPoissonModel "H" "A" 1 →
       ∀ q ∈ top5_cells initPoissonModel "H" "A" 1, p.2 ≤ q.2)) ∧
    ((1 : ℕ) ≤ 3 →
      (top5_cells initPoissonModel "H" "A" 1).Pairwise
        (fun x y => y.2 < x.2 ∨ (y.2 = x.2 ∧ y.1 < x.1)) ∧
      (∀ p ∈ flat_cells initPoissonModel "H" "A" 1,
        p ∉ top5_cells initPoissonModel "H" "A" 1 →
        ∀ q ∈ top5_cells initPoissonModel "H" "A" 1,
          p.2 < q.2 ∨ (p.2 = q.2 ∧ p.1 < q.1)) ∧
      most_likely_scores initPoissonModel "H" "A" 1 =
        (top5_cells initPoissonModel "H" "A" 1).map
          (fun p => ((p.1 / (1 + 1), p.1 % (1 + 1)), p.2))) :=
  c5_amended_ranking initPoissonModel "H" "A" 1

/-- Equal home and away expectations arise from attack coefficients
`{A: 1, B: 1.35}` (and all defenses 1): both expectations are then
`1.35 × 1.375 = 1.85625`, by the *identical sequence* of float operations
in the source, so the symmetric cells of the float matrix are exactly
equal there as well. -/
def c5_model : PoissonModel :=
  { team_attack := [("A", 1), ("B", 27/20)], team_defense := [("A", 1), ("B", 1)] }

/-- C5 counterexample: with equal expectations 1.85625 and `max_goals = 2`
— a 9-cell flattened matrix, well inside the insertion-sort cutoff of
NumPy's default argsort, so the sort is stable and its tie order is
determined — the cells (1,2) and (2,1) have exactly equal probability
cores, and the published list ranks (2,1) — the *later* scoreline in
row-major order — before (1,2) (and likewise (1,0) is listed fifth rather
than (0,1)), contradicting the claimed earlier-row-major-first
tie-breaking. -/
theorem c5_counterexample :
    predict_score c5_model "A" "B" = (297/160, 297/160) ∧
    most_likely_scores c5_model "A" "B" 2 =
      [((1,1), 88209/25600),
       ((2,1), 26198073/8192000),
       ((1,2), 26198073/8192000),
       ((2,2), 7780827681/2621440000),
       ((1,0), 297/160)] := by
  have hps : predict_score c5_model "A" "B" = (297/160, 297/160) := by
    norm_num +decide [predict_score, c5_model, dictGet]
  refine ⟨hps, ?_⟩
  norm_num [most_likely_scores, top5_cells, argsortAsc, flat_cells, pmf_core,
    hps, ascLex, List.range_succ, List.orderedInsert]

/-! ## EloRating (elo_rating.py)

Ratings start as an empty dict; `get_rating` is `dict.get(team, default)`.
`calculate_expected_score(a, b, a_home)` adds the home bonus to `a`'s
rating only, then returns `1 / (1 + 10 ** ((R_b - R_a)/400))`.
`update_ratings` maps the result label to actual scores — any label other
than `home_win`/`away_win` falls into the `else:  # draw` branch — computes
`expected_home = ces(home, away, True)` but
`expected_away = ces(away, home, False)` (no home-bonus compensation on the
away side), scales by `K * importance`, and stores `round(...)` (Python's
banker's rounding) for both teams, writing home then away. -/

structure EloRating where
  ratings : String → Option ℤ := fun _ => none
  default_rating : ℤ := 1500
  k_factor : ℤ := 40
  home_advantage : ℤ := 100

def initElo : EloRating := {}

def get_rating (e : EloRating) (team : String) : ℤ :=
  (e.ratings team).getD e.default_rating

noncomputable def calculate_expected_score (e : EloRating)
    (team_a team_b : String) (team_a_home : Bool) : ℝ :=
  let rating_a := get_rating e team_a +
    (if team_a_home then e.home_advantage else 0)
  let rating_b := get_rating e team_b
  1 / (1 + (10:ℝ) ^ (((rating_b - rating_a : ℤ) : ℝ) / 400))

/-- Python 3 `round`: nearest integer, exact halves to the even neighbor. -/
noncomputable def pyRound (x : ℝ) : ℤ :=
  if x - ⌊x⌋ = 1/2 then (if Even ⌊x⌋ then ⌊x⌋ else ⌊x⌋ + 1) else round x

noncomputable def update_ratings (e : EloRating)
    (home_team away_team result : String) (importance : ℝ) :
    (ℤ × ℤ) × EloRating :=
  let home_rating := get_rating e home_team
  let away_rating := get_rating e away_team
  let actual : ℝ × ℝ :=
    if result = "home_win" then (1, 0)
    else if result = "away_win" then (0, 1)
    else (1/2, 1/2)
  let expected_home := calculate_expected_score e home_team away_team true
  let expected_away := calculate_expected_score e away_team home_team false
  let adjusted_k := (e.k_factor : ℝ) * importance
  let new_home_rating := pyRound ((home_rating : ℝ) +
    adjusted_k * (actual.1 - expected_home))
  let new_away_rating := pyRound ((away_rating : ℝ) +
    adjusted_k * (actual.2 - expected_away))
  ((new_home_rating, new_away_rating),
   { e with ratings := fun t =>
      if t = away_team then some new_away_rating
      else if t = home_team then some new_home_rating
      else e.ratings t })

/-! ### `pyRound` bracketing lemmas -/

theorem pyRound_intCast (n : ℤ) : pyRound (n : ℝ) = n := by
  unfold pyRound
  rw [Int.floor_intCast]
  norm_num

theorem le_pyRound (n : ℤ) (x : ℝ) (h : (n:ℝ) ≤ x) : n ≤ pyRound x := by
  unfold pyRound
  have hfl : n ≤ ⌊x⌋ := Int.le_floor.mpr h
  split_ifs with h1 h2
  · exact hfl
  · omega
  · rw [round_eq]
    refine le_trans hfl (Int.floor_le_floor ?_)
    linarith

theorem pyRound_le (n : ℤ) (x : ℝ) (h : x ≤ (n:ℝ)) : pyRound x ≤ n := by
  unfold pyRound
  have hfl : ⌊x⌋ ≤ n := by
    calc ⌊x⌋ ≤ ⌊(n:ℝ)⌋ := Int.floor_le_floor h
    _ = n := Int.floor_intCast n
  split_ifs with h1 h2
  · exact hfl
  · have hlt : (⌊x⌋:ℝ) < n := by
      have hx : (⌊x⌋:ℝ) = x - 1/2 := by linarith
      linarith
    have : ⌊x⌋ < n := by exact_mod_cast hlt
    omega
  · rw [round_eq]
    have hfe : ⌊(n:ℝ) + 1/2⌋ = n := by
      rw [Int.floor_eq_iff]
      constructor
      · linarith
      · linarith
    calc ⌊x + 1/2⌋ ≤ ⌊(n:ℝ) + 1/2⌋ := Int.floor_le_floor (by linarith)
    _ = n := hfe

theorem lt_pyRound (n : ℤ) (x : ℝ) (h : (n:ℝ) + 1/2 < x) : n < pyRound x := by
  unfold pyRound
  split_ifs with h1 h2
  · have hlt : (n:ℝ) < ⌊x⌋ := by linarith
    exact_mod_cast hlt
  · have hlt : (n:ℝ) < ⌊x⌋ := by linarith
    have : n < ⌊x⌋ := by exact_mod_cast hlt
    omega
  · rw [round_eq]
    have : n + 1 ≤ ⌊x + 1/2⌋ := Int.le_floor.mpr (by push_cast; linarith)
    omega

theorem pyRound_lt (n : ℤ) (x : ℝ) (h : x < (n:ℝ) - 1/2) : pyRound x < n := by
  unfold pyRound
  split_ifs with h1 h2
  · have hlt : (⌊x⌋:ℝ) < n := lt_of_le_of_lt (Int.floor_le x) (by linarith)
    exact_mod_cast hlt
  · have hx : (⌊x⌋:ℝ) = x - 1/2 := by linarith
    have hlt : (⌊x⌋:ℝ) < n - 1 := by linarith
    have : ⌊x⌋ < n - 1 := by exact_mod_cast hlt
    omega
  · rw [round_eq]
    have : ⌊x + 1/2⌋ < n := Int.floor_lt.mpr (by linarith)
    omega

theorem pyRound_eq (n : ℤ) (x : ℝ) (h1 : (n:ℝ) - 1/2 < x)
    (h2 : x < (n:ℝ) + 1/2) : pyRound x = n := by
  have ha : n - 1 < pyRound x := lt_pyRound (n-1) x (by
    rw [Int.cast_sub, Int.cast_one]
    linarith)
  have hb : pyRound x < n + 1 := pyRound_lt (n+1) x (by
    rw [Int.cast_add, Int.cast_one]
    linarith)
  omega

/-! ### Generic facts about the expected score -/

theorem ces_pos (e : EloRating) (a b : String) (ah : Bool) :
    0 < calculate_expected_score e a b ah := by
  unfold calculate_expected_score
  have hp : (0:ℝ) < (10:ℝ) ^ (((get_rating e b -
      (get_rating e a + (if ah then e.home_advantage else 0)) : ℤ) : ℝ) / 400) :=
    Real.rpow_pos_of_pos (by norm_num) _
  positivity

theorem ces_lt_one (e : EloRating) (a b : String) (ah : Bool) :
    calculate_expected_score e a b ah < 1 := by
  unfold calculate_expected_score
  have hp : (0:ℝ) < (10:ℝ) ^ (((get_rating e b -
      (get_rating e a + (if ah then e.home_advantage else 0)) : ℤ) : ℝ) / 400) :=
    Real.rpow_pos_of_pos (by norm_num) _
  rw [div_lt_one (by linarith)]
  linarith

/-- The home-win branch of `update_ratings`, spelled out. -/
theorem update_ratings_home_win (e : EloRating) (h a : String) (imp : ℝ) :
    update_ratings e h a "home_win" imp =
      ((pyRound ((get_rating e h : ℝ) + (e.k_factor : ℝ) * imp *
          (1 - calculate_expected_score e h a true)),
        pyRound ((get_rating e a : ℝ) + (e.k_factor : ℝ) * imp *
          (0 - calculate_expected_score e a h false))),
       { e with ratings := fun t =>
          if t = a then
            some (pyRound ((get_rating e a : ℝ) + (e.k_factor : ℝ) * imp *
              (0 - calculate_expected_score e a h false)))
          else if t = h then
            some (pyRound ((get_rating e h : ℝ) + (e.k_factor : ℝ) * imp *
              (1 - calculate_expected_score e h a true)))
          else e.ratings t }) := by
  simp [update_ratings]

/-! ### Bounds on `10 ** 0.25` -/

theorem rpow_quarter_pow : ((10:ℝ) ^ ((1:ℝ)/4)) ^ (4:ℕ) = 10 := by
  rw [← Real.rpow_natCast ((10:ℝ) ^ ((1:ℝ)/4)) 4,
    ← Real.rpow_mul (by norm_num : (0:ℝ) ≤ 10)]
  norm_num

theorem quarter_bounds :
    (1.77701:ℝ) < (10:ℝ) ^ ((1:ℝ)/4) ∧ (10:ℝ) ^ ((1:ℝ)/4) < 1.77854 := by
  constructor
  · have h4 : (1.77701:ℝ)^(4:ℕ) < ((10:ℝ)^((1:ℝ)/4))^(4:ℕ) := by
      rw [rpow_quarter_pow]; norm_num
    exact lt_of_pow_lt_pow_left₀ 4 (Real.rpow_nonneg (by norm_num) _) h4
  · have h4 : ((10:ℝ)^((1:ℝ)/4))^(4:ℕ) < (1.77854:ℝ)^(4:ℕ) := by
      rw [rpow_quarter_pow]; norm_num
    exact lt_of_pow_lt_pow_left₀ 4 (by norm_num) h4

/-- Ten to a power at most −8 is at most 1e-8. -/
theorem rpow_neg_le_em8 (c : ℝ) (h8 : (8:ℝ) ≤ c) :
    (10:ℝ) ^ (-c) ≤ 1/100000000 := by
  have h1 : (10:ℝ) ^ (-c) ≤ (10:ℝ) ^ (-(8:ℝ)) :=
    (Real.rpow_le_rpow_left_iff (by norm_num : (1:ℝ) < 10)).mpr (by linarith)
  have h2 : (10:ℝ) ^ (-(8:ℝ)) = 1/100000000 := by
    rw [Real.rpow_neg (by norm_num : (0:ℝ) ≤ 10),
      show ((8:ℝ)) = ((8:ℕ):ℝ) by norm_num, Real.rpow_natCast]
    norm_num
  rw [h2] at h1
  exact h1

/-- The `else` branch of the result dispatch (everything that is neither
`home_win` nor `away_win` is scored as a draw), spelled out. -/
theorem update_ratings_other (e : EloRating) (h a result : String) (imp : ℝ)
    (h1 : result ≠ "home_win") (h2 : result ≠ "away_win") :
    update_ratings e h a result imp =
      ((pyRound ((get_rating e h : ℝ) + (e.k_factor : ℝ) * imp *
          (1/2 - calculate_expected_score e h a true)),
        pyRound ((get_rating e a : ℝ) + (e.k_factor : ℝ) * imp *
          (1/2 - calculate_expected_score e a h false))),
       { e with ratings := fun t =>
          if t = a then
            some (pyRound ((get_rating e a : ℝ) + (e.k_factor : ℝ) * imp *
              (1/2 - calculate_expected_score e a h false)))
          else if t = h then
            some (pyRound ((get_rating e h : ℝ) + (e.k_factor : ℝ) * imp *
              (1/2 - calculate_expected_score e h a true)))
          else e.ratings t }) := by
  simp [update_ratings, if_neg h1, if_neg h2]

/-- At the fresh tracker, the home expectation is
`1/(1 + 10^(-1/4)) = 1 - 1/(10^(1/4) + 1)` (rating gap −100 from the home
bonus alone). -/
theorem ces_init_home_eq :
    calculate_expected_score initElo "TeamA" "TeamB" true =
      1 - 1 / ((10:ℝ) ^ ((1:ℝ)/4) + 1) := by
  have ht : (0:ℝ) < (10:ℝ) ^ ((1:ℝ)/4) := Real.rpow_pos_of_pos (by norm_num) _
  have ht1 : (10:ℝ) ^ ((1:ℝ)/4) + 1 ≠ 0 := by positivity
  unfold calculate_expected_score
  norm_num [get_rating, initElo]
  rw [Real.rpow_neg (by norm_num : (0:ℝ) ≤ 10)]
  field_simp

/-- At the fresh tracker, the away expectation is computed without any
home-bonus compensation: gap 0, so it is exactly 1/2. -/
theorem ces_init_away_eq :
    calculate_expected_score initElo "TeamB" "TeamA" false = 1/2 := by
  unfold calculate_expected_score
  norm_num [get_rating, initElo]

theorem ces_init_home_bounds :
    0.6399 < calculate_expected_score initElo "TeamA" "TeamB" true ∧
    calculate_expected_score initElo "TeamA" "TeamB" true < 0.6401 := by
  obtain ⟨hl, hu⟩ := quarter_bounds
  have ht : (0:ℝ) < (10:ℝ) ^ ((1:ℝ)/4) := Real.rpow_pos_of_pos (by norm_num) _
  have hpos : (0:ℝ) < (10:ℝ) ^ ((1:ℝ)/4) + 1 := by linarith
  rw [ces_init_home_eq]
  constructor
  · have h1 : 1 / ((10:ℝ) ^ ((1:ℝ)/4) + 1) < 0.3601 := by
      rw [div_lt_iff₀ hpos]; linarith
    linarith
  · have h2 : (0.3599:ℝ) < 1 / ((10:ℝ) ^ ((1:ℝ)/4) + 1) := by
      rw [lt_div_iff₀ hpos]; linarith
    linarith

/-- The update the source performs on a fresh tracker for a home win:
home 1500 → 1514 (40 × 0.359935 ≈ 14.4), away 1500 → 1480
(expected_away is exactly 0.5, so 40 × (0 − 0.5) = −20). -/
theorem elo_default_home_win_values :
    (update_ratings initElo "TeamA" "TeamB" "home_win" 1).1 = (1514, 1480) ∧
    get_rating (update_ratings initElo "TeamA" "TeamB" "home_win" 1).2 "TeamA" = 1514 ∧
    get_rating (update_ratings initElo "TeamA" "TeamB" "home_win" 1).2 "TeamB" = 1480 := by
  obtain ⟨hEl, hEu⟩ := ces_init_home_bounds
  have hproj_h : get_rating (update_ratings initElo "TeamA" "TeamB" "home_win" 1).2 "TeamA" =
      (update_ratings initElo "TeamA" "TeamB" "home_win" 1).1.1 := rfl
  have hproj_a : get_rating (update_ratings initElo "TeamA" "TeamB" "home_win" 1).2 "TeamB" =
      (update_ratings initElo "TeamA" "TeamB" "home_win" 1).1.2 := rfl
  have hmain : (update_ratings initElo "TeamA" "TeamB" "home_win" 1).1 = (1514, 1480) := by
    rw [update_ratings_home_win]
    set E := calculate_expected_score initElo "TeamA" "TeamB" true with hEdef
    rw [ces_init_away_eq]
    simp only [Prod.mk.injEq]
    constructor
    · apply pyRound_eq <;> norm_num [get_rating, initElo] <;> linarith
    · rw [show ((get_rating initElo "TeamB" : ℝ) + (initElo.k_factor : ℝ) * 1 *
        (0 - 1/2)) = ((1480:ℤ):ℝ) by norm_num [get_rating, initElo]]
      exact pyRound_intCast 1480
  exact ⟨hmain, by rw [hproj_h, hmain], by rw [hproj_a, hmain]⟩

/-! ### Claim C1 -/

/-- C1 counterexample: the fresh-tracker home-win update returns away
rating 1480, not the claimed 1486 — the source computes `expected_away`
as `calculate_expected_score(away, home, False)`, i.e. with rating gap 0
(no compensation for the home bonus), so the away delta is
40 × (0 − 0.5) = −20, not 40 × (0 − 0.36). -/
theorem c1_counterexample :
    (update_ratings initElo "TeamA" "TeamB" "home_win" 1).1 = (1514, 1480) ∧
    (1480 : ℤ) ≠ 1486 :=
  ⟨elo_default_home_win_values.1, by decide⟩

/-- C1 amended: expected_home ≈ 0.6400 and the new home rating is 1514 as
claimed, but the new away rating is 1480 (expected_away is exactly 0.5);
`get_rating` subsequently returns 1514 and 1480. -/
theorem c1_amended_default_update :
    |calculate_expected_score initElo "TeamA" "TeamB" true - 0.64| < 1/10000 ∧
    (update_ratings initElo "TeamA" "TeamB" "home_win" 1).1 = (1514, 1480) ∧
    get_rating (update_ratings initElo "TeamA" "TeamB" "home_win" 1).2 "TeamA" = 1514 ∧
    get_rating (update_ratings initElo "TeamA" "TeamB" "home_win" 1).2 "TeamB" = 1480 := by
  obtain ⟨hEl, hEu⟩ := ces_init_home_bounds
  refine ⟨?_, elo_default_home_win_values⟩
  rw [abs_lt]
  constructor <;> linarith

/-! ### Claim C2 -/

/-- C2 counterexample: an unrecognized result label ("banana") does not
fail — it is scored as a draw and the ratings are updated and stored
(home 1500 → 1494 since expected_home ≈ 0.64 exceeds the 0.5 draw score;
away stays 1500 since expected_away is exactly 0.5). -/
theorem c2_counterexample :
    (update_ratings initElo "TeamA" "TeamB" "banana" 1).1 = (1494, 1500) ∧
    get_rating (update_ratings initElo "TeamA" "TeamB" "banana" 1).2 "TeamA" = 1494 := by
  obtain ⟨hEl, hEu⟩ := ces_init_home_bounds
  have hproj_h : get_rating (update_ratings initElo "TeamA" "TeamB" "banana" 1).2 "TeamA" =
      (update_ratings initElo "TeamA" "TeamB" "banana" 1).1.1 := rfl
  have hmain : (update_ratings initElo "TeamA" "TeamB" "banana" 1).1 = (1494, 1500) := by
    rw [update_ratings_other initElo "TeamA" "TeamB" "banana" 1
      (by decide) (by decide)]
    set E := calculate_expected_score initElo "TeamA" "TeamB" true with hEdef
    rw [ces_init_away_eq]
    simp only [Prod.mk.injEq]
    constructor
    · apply pyRound_eq <;> norm_num [get_rating, initElo] <;> linarith
    · rw [show ((get_rating initElo "TeamB" : ℝ) + (initElo.k_factor : ℝ) * 1 *
        (1/2 - 1/2)) = ((1500:ℤ):ℝ) by norm_num [get_rating, initElo]]
      exact pyRound_intCast 1500
  exact ⟨hmain, by rw [hproj_h, hmain]⟩

/-- C2 amended: `update_ratings` silently treats every result label other
than `home_win`/`away_win` exactly like `"draw"` (actual scores 0.5/0.5):
same return value, same stored ratings, no error of any kind. -/
theorem c2_amended_unknown_result_is_draw (e : EloRating) (h a result : String)
    (imp : ℝ) (h1 : result ≠ "home_win") (h2 : result ≠ "away_win") :
    update_ratings e h a result imp = update_ratings e h a "draw" imp := by
  simp only [update_ratings, if_neg h1, if_neg h2,
    if_neg (show ("draw":String) ≠ "home_win" by decide),
    if_neg (show ("draw":String) ≠ "away_win" by decide)]

/-- Witness for `c2_amended_unknown_result_is_draw` at the label
"banana". -/
theorem c2_amended_unknown_result_is_draw_witness :
    update_ratings initElo "TeamH" "TeamG" "banana" 1 =
      update_ratings initElo "TeamH" "TeamG" "draw" 1 :=
  c2_amended_unknown_result_is_draw initElo "TeamH" "TeamG" "banana" 1
    (by decide) (by decide)

/-! ### Claim C7 -/

theorem get_rating_updated (e : EloRating) (h a : String) (hne : h ≠ a)
    (na nh : ℤ) :
    get_rating { e with ratings := fun t =>
      if t = a then some na else if t = h then some nh else e.ratings t } h = nh ∧
    get_rating { e with ratings := fun t =>
      if t = a then some na else if t = h then some nh else e.ratings t } a = na := by
  constructor <;> simp [get_rating, hne]

/-- C7 amended: for a home win with importance 1 and K > 0, the home
team's stored rating never decreases and the away team's never increases
(with expected_home < 1); but the change is only guaranteed *strict* when
the rating delta before rounding exceeds 1/2 — `round` erases any smaller
delta, so "strictly greater/less" fails in general
(see the counterexample). -/
theorem c7_amended_monotone (e : EloRating) (h a : String) (hne : h ≠ a)
    (hk : 0 < e.k_factor)
    (hE : calculate_expected_score e h a true < 1) :
    get_rating e h ≤ get_rating (update_ratings e h a "home_win" 1).2 h ∧
    get_rating (update_ratings e h a "home_win" 1).2 a ≤ get_rating e a ∧
    ((1/2 : ℝ) < (e.k_factor : ℝ) * (1 - calculate_expected_score e h a true) →
      get_rating e h < get_rating (update_ratings e h a "home_win" 1).2 h) ∧
    ((1/2 : ℝ) < (e.k_factor : ℝ) * calculate_expected_score e a h false →
      get_rating (update_ratings e h a "home_win" 1).2 a < get_rating e a) := by
  have hEa := ces_pos e a h false
  have hk' : (0:ℝ) < (e.k_factor : ℝ) := by exact_mod_cast hk
  rw [update_ratings_home_win]
  obtain ⟨hgh, hga⟩ := get_rating_updated e h a hne
    (pyRound ((get_rating e a : ℝ) + (e.k_factor : ℝ) * 1 *
      (0 - calculate_expected_score e a h false)))
    (pyRound ((get_rating e h : ℝ) + (e.k_factor : ℝ) * 1 *
      (1 - calculate_expected_score e h a true)))
  rw [hgh, hga]
  refine ⟨?_, ?_, ?_, ?_⟩
  · apply le_pyRound
    nlinarith
  · apply pyRound_le
    nlinarith
  · intro hs
    apply lt_pyRound
    nlinarith
  · intro hs
    apply pyRound_lt
    nlinarith

/-- Witness for `c7_amended_monotone` at the fresh tracker. -/
theorem c7_amended_monotone_witness :
    get_rating initElo "TeamA" ≤
      get_rating (update_ratings initElo "TeamA" "TeamB" "home_win" 1).2 "TeamA" ∧
    get_rating (update_ratings initElo "TeamA" "TeamB" "home_win" 1).2 "TeamB" ≤
      get_rating initElo "TeamB" ∧
    ((1/2 : ℝ) < (initElo.k_factor : ℝ) *
        (1 - calculate_expected_score initElo "TeamA" "TeamB" true) →
      get_rating initElo "TeamA" <
        get_rating (update_ratings initElo "TeamA" "TeamB" "home_win" 1).2 "TeamA") ∧
    ((1/2 : ℝ) < (initElo.k_factor : ℝ) *
        calculate_expected_score initElo "TeamB" "TeamA" false →
      get_rating (update_ratings initElo "TeamA" "TeamB" "home_win" 1).2 "TeamB" <
        get_rating initElo "TeamB") :=
  c7_amended_monotone initElo "TeamA" "TeamB" (by decide) (by decide)
    (ces_lt_one initElo "TeamA" "TeamB" true)

theorem one_sub_inv_one_add (u : ℝ) (hu : 0 < u) :
    0 < 1 - (1+u)⁻¹ ∧ 1 - (1+u)⁻¹ ≤ u := by
  have h1 : (0:ℝ) < 1 + u := by linarith
  constructor
  · have hlt : (1+u)⁻¹ < 1 := by
      rw [show (1+u)⁻¹ = 1/(1+u) from (one_div _).symm, div_lt_one h1]
      linarith
    linarith
  · have heq : 1 - (1+u)⁻¹ = u/(1+u) := by field_simp
    rw [heq, div_le_iff₀ h1]
    nlinarith

theorem inv_one_add_le_of_ge (v : ℝ) (hv : (100000000:ℝ) ≤ v) :
    0 < (1+v)⁻¹ ∧ (1+v)⁻¹ ≤ 1/100000000 := by
  have h1 : (0:ℝ) < 1 + v := by linarith
  refine ⟨by positivity, ?_⟩
  rw [show (1+v)⁻¹ = 1/(1+v) from (one_div _).symm,
    div_le_div_iff₀ h1 (by norm_num)]
  linarith

theorem rpow_ge_e8 (c : ℝ) (h8 : (8:ℝ) ≤ c) : (100000000:ℝ) ≤ (10:ℝ) ^ c := by
  have h1 : (10:ℝ) ^ (8:ℝ) ≤ (10:ℝ) ^ c :=
    (Real.rpow_le_rpow_left_iff (by norm_num : (1:ℝ) < 10)).mpr h8
  have h2 : (10:ℝ) ^ (8:ℝ) = 100000000 := by
    rw [show ((8:ℝ)) = ((8:ℕ):ℝ) by norm_num, Real.rpow_natCast]
    norm_num
  rw [h2] at h1
  exact h1

/-- The tracker after one importance-100 home win on fresh defaults:
A's rating jumps to 2940 and B's drops to −500, leaving a gap so large
that a subsequent importance-1 update moves neither rating. -/
noncomputable def c7_state : EloRating :=
  (update_ratings initElo "TeamA" "TeamB" "home_win" 100).2

theorem c7_first_update :
    (update_ratings initElo "TeamA" "TeamB" "home_win" 100).1 = (2940, -500) := by
  obtain ⟨hEl, hEu⟩ := ces_init_home_bounds
  rw [update_ratings_home_win]
  set E := calculate_expected_score initElo "TeamA" "TeamB" true with hEdef
  rw [ces_init_away_eq]
  simp only [Prod.mk.injEq]
  constructor
  · apply pyRound_eq <;> norm_num [get_rating, initElo] <;> linarith
  · rw [show ((get_rating initElo "TeamB" : ℝ) + (initElo.k_factor : ℝ) * 100 *
      (0 - 1/2)) = ((-500:ℤ):ℝ) by norm_num [get_rating, initElo]]
    exact pyRound_intCast (-500)

theorem c7_rating_A : get_rating c7_state "TeamA" = 2940 := by
  have hp : get_rating c7_state "TeamA" =
      (update_ratings initElo "TeamA" "TeamB" "home_win" 100).1.1 := rfl
  rw [hp, c7_first_update]

theorem c7_rating_B : get_rating c7_state "TeamB" = -500 := by
  have hp : get_rating c7_state "TeamB" =
      (update_ratings initElo "TeamA" "TeamB" "home_win" 100).1.2 := rfl
  rw [hp, c7_first_update]

theorem c7_second_home_expectation :
    calculate_expected_score c7_state "TeamA" "TeamB" true =
      1 / (1 + (10:ℝ) ^ (-(177/20) : ℝ)) := by
  unfold calculate_expected_score
  norm_num [c7_rating_A, c7_rating_B, show c7_state.home_advantage = 100 from rfl]

theorem c7_second_away_expectation :
    calculate_expected_score c7_state "TeamB" "TeamA" false =
      1 / (1 + (10:ℝ) ^ ((43/5) : ℝ)) := by
  unfold calculate_expected_score
  norm_num [c7_rating_A, c7_rating_B]

/-- C7 counterexample: at the (reachable) tracker state A: 2940, B: −500,
the claim's hypotheses hold (K = 40 > 0, importance 1, expected_home < 1),
yet a further `update_ratings(A, B, "home_win")` changes neither stored
rating: the pre-rounding deltas are below 2e-6, so `round` returns the old
values — A's rating is not strictly greater, B's not strictly less. -/
theorem c7_counterexample :
    0 < c7_state.k_factor ∧
    calculate_expected_score c7_state "TeamA" "TeamB" true < 1 ∧
    get_rating c7_state "TeamA" = 2940 ∧ get_rating c7_state "TeamB" = -500 ∧
    get_rating (update_ratings c7_state "TeamA" "TeamB" "home_win" 1).2 "TeamA" =
      get_rating c7_state "TeamA" ∧
    get_rating (update_ratings c7_state "TeamA" "TeamB" "home_win" 1).2 "TeamB" =
      get_rating c7_state "TeamB" := by
  have hu : (0:ℝ) < (10:ℝ) ^ (-(177/20) : ℝ) :=
    Real.rpow_pos_of_pos (by norm_num) _
  have hule : (10:ℝ) ^ (-(177/20) : ℝ) ≤ 1/100000000 :=
    rpow_neg_le_em8 (177/20) (by norm_num)
  obtain ⟨hd_pos, hd_le⟩ := one_sub_inv_one_add _ hu
  have hv : (100000000:ℝ) ≤ (10:ℝ) ^ ((43/5) : ℝ) :=
    rpow_ge_e8 (43/5) (by norm_num)
  obtain ⟨ha_pos, ha_le⟩ := inv_one_add_le_of_ge _ hv
  have hproj_h : get_rating (update_ratings c7_state "TeamA" "TeamB" "home_win" 1).2 "TeamA" =
      (update_ratings c7_state "TeamA" "TeamB" "home_win" 1).1.1 := rfl
  have hproj_a : get_rating (update_ratings c7_state "TeamA" "TeamB" "home_win" 1).2 "TeamB" =
      (update_ratings c7_state "TeamA" "TeamB" "home_win" 1).1.2 := rfl
  have hmain : (update_ratings c7_state "TeamA" "TeamB" "home_win" 1).1 = (2940, -500) := by
    rw [update_ratings_home_win, c7_second_home_expectation,
      c7_second_away_expectation]
    simp only [Prod.mk.injEq]
    constructor
    · apply pyRound_eq <;>
        norm_num [c7_rating_A, show c7_state.k_factor = 40 from rfl] <;>
        linarith
    · apply pyRound_eq <;>
        norm_num [c7_rating_B, show c7_state.k_factor = 40 from rfl] <;>
        linarith
  refine ⟨by decide, ?_, c7_rating_A, c7_rating_B, ?_, ?_⟩
  · exact ces_lt_one c7_state "TeamA" "TeamB" true
  · rw [hproj_h, hmain, c7_rating_A]
  · rw [hproj_a, hmain, c7_rating_B]

end FootballAnalyzer
